import Mathlib

set_option maxRecDepth 8000

/-!
# Verification of the DotShop core (`data_structures.py`, `modulator.py`)

A shallow embedding of the DotShop repository's core: the typed pixel-matrix
data model, the screen configuration object, and the modulation engine that
turns a pixel matrix into a hardware byte stream.

Modelling conventions:
* Python machine integers are `Nat`/`Int`; numpy `uint8`/`uint16` cells are
  `Nat` values constrained by a wellformedness predicate.
* Fallible Python code (functions that can raise) returns `Except PyError α`.
  `PyError` distinguishes the exception classes the source raises.
* A numpy 2-D array indexed `arr[y][x]` is a `List (List (List Nat))` whose
  cell at `[y][x]` is the list of channel values of that pixel; single-channel
  modes store one-element cells, mirroring `get_pixel`'s normalisation of a
  scalar to a 1-tuple.
* Python generators are modelled as the finite lists they yield.
-/

/-- The Python exception classes raised by the embedded code. -/
inductive PyError where
  | attributeError
  | valueError
  | typeError
  | indexError
  | nameError
  | exceptionRaised
deriving DecidableEq, Repr

/-- Equality of embedded fallible results is decidable (needed so concrete
runs of the embedded code can be checked by evaluation). -/
instance {e a : Type} [DecidableEq e] [DecidableEq a] : DecidableEq (Except e a) := fun u v =>
  match u, v with
  | .error e1, .error e2 =>
    if h : e1 = e2 then .isTrue (by rw [h]) else .isFalse fun hc => h (Except.error.inj hc)
  | .ok a1, .ok a2 =>
    if h : a1 = a2 then .isTrue (by rw [h]) else .isFalse fun hc => h (Except.ok.inj hc)
  | .error _, .ok _ => .isFalse fun hc => Except.noConfusion hc
  | .ok _, .error _ => .isFalse fun hc => Except.noConfusion hc

/-- `ColorMode` enum, data_structures.py lines 11-21. -/
inductive ColorMode where
  | MONO
  | GRAY_8
  | RGB_888
  | RGB_8888
  | RGB565
deriving DecidableEq, Repr

/-- `ScanDirection` enum, data_structures.py lines 24-35.  Its six members are
`HORIZONTAL`, `VERTICAL`, `HORIZONTAL_REVERSED`, `VERTICAL_REVERSED`,
`BY_PAGE`, `BY_PAGE_REVERSED` (there is no member named `VERTICAL_BY_PAGE`
or `VERTICAL_REVERSED_BY_PAGE`). -/
inductive ScanDirection where
  | HORIZONTAL
  | VERTICAL
  | HORIZONTAL_REVERSED
  | VERTICAL_REVERSED
  | BY_PAGE
  | BY_PAGE_REVERSED
deriving DecidableEq, BEq, Repr

/-- `BitOrder` enum, data_structures.py lines 38-45. -/
inductive BitOrder where
  | MSB_FIRST
  | LSB_FIRST
deriving DecidableEq, Repr

/-! ## Scan strategies (modulator.py lines 40-196)

Each class's `get_pixel_order` generator is modelled as the list of `(x, y)`
pairs it yields.  Python's `range(n - 1, -1, -1)` enumerates `n-1, …, 0`,
i.e. `(List.range n).reverse`. -/

/-- `HorizontalScanStrategy.get_pixel_order` (lines 53-66): `y` outer
ascending over `range(height)`, `x` inner ascending over `range(width)`. -/
def HorizontalScanStrategy.get_pixel_order (width height : Nat) : List (Nat × Nat) :=
  (List.range height).flatMap fun y => (List.range width).map fun x => (x, y)

/-- `HorizontalReversedScanStrategy.get_pixel_order` (lines 82-95): `y` outer
ascending, `x` inner over `range(width - 1, -1, -1)`. -/
def HorizontalReversedScanStrategy.get_pixel_order (width height : Nat) : List (Nat × Nat) :=
  (List.range height).flatMap fun y => (List.range width).reverse.map fun x => (x, y)

/-- `VerticalScanStrategy.get_pixel_order` (lines 111-124): `x` outer
ascending, `y` inner ascending. -/
def VerticalScanStrategy.get_pixel_order (width height : Nat) : List (Nat × Nat) :=
  (List.range width).flatMap fun x => (List.range height).map fun y => (x, y)

/-- `VerticalReversedScanStrategy.get_pixel_order` (lines 140-153): `x` outer
ascending, `y` inner over `range(height - 1, -1, -1)`. -/
def VerticalReversedScanStrategy.get_pixel_order (width height : Nat) : List (Nat × Nat) :=
  (List.range width).flatMap fun x => (List.range height).reverse.map fun y => (x, y)

/-- `VerticalScanStrategyByPage.get_pixel_order` (lines 169-175): raises a bare
`Exception` when `height % 8 != 0`; otherwise iterates `pageOrder` over
`range(height // 8)`, `x` over `range(width)`, `y` over `range(8)`, yielding
`(x, pageOrder * 8 + y)`. -/
def VerticalScanStrategyByPage.get_pixel_order (width height : Nat) :
    Except PyError (List (Nat × Nat)) :=
  if height % 8 ≠ 0 then .error .exceptionRaised
  else .ok ((List.range (height / 8)).flatMap fun pageOrder =>
    (List.range width).flatMap fun x =>
      (List.range 8).map fun y => (x, pageOrder * 8 + y))

/-- `VerticalReversedScanStrategyByPage.get_pixel_order` (lines 190-196): same
as the non-reversed page variant but `y` iterates over `range(7, -1, -1)`. -/
def VerticalReversedScanStrategyByPage.get_pixel_order (width height : Nat) :
    Except PyError (List (Nat × Nat)) :=
  if height % 8 ≠ 0 then .error .exceptionRaised
  else .ok ((List.range (height / 8)).flatMap fun pageOrder =>
    (List.range width).flatMap fun x =>
      (List.range 8).reverse.map fun y => (x, pageOrder * 8 + y))

/-! ## Bit-encoding strategies (modulator.py lines 199-312) -/

/-- `BitEncodingStrategy.pad_remaining` (lines 222-236): raises `ValueError`
when the group is longer than 8, otherwise right-pads with zeros to length 8. -/
def BitEncodingStrategy.pad_remaining (pixels : List Nat) : Except PyError (List Nat) :=
  if pixels.length > 8 then .error .valueError
  else .ok (pixels ++ List.replicate (8 - pixels.length) 0)

/-- `BitEncodingStrategy.break_decimal_into_binary` (lines 238-242): for `i`
in `range(8)` appends `(decimal & (0x80 >> i)) >> (7 - i)`, i.e. the 8 bits of
`decimal`, most significant first. -/
def BitEncodingStrategy.break_decimal_into_binary (decimal : Nat) : List Nat :=
  (List.range 8).map fun i => (decimal &&& (0x80 >>> i)) >>> (7 - i)

/-- `MSBFirstEncoding.encode_by_bits` (lines 254-280): raises `ValueError`
unless exactly 8 pixels are given; otherwise ORs `pixels[i] << (7 - i)` into
the byte. -/
def MSBFirstEncoding.encode_by_bits (pixels : List Nat) : Except PyError Nat :=
  if pixels.length ≠ 8 then .error .valueError
  else .ok ((List.range 8).foldl
    (fun byte_value i => byte_value ||| (pixels.getD i 0) <<< (7 - i)) 0)

/-- `LSBFirstEncoding.encode_by_bits` (lines 286-312): raises `ValueError`
unless exactly 8 pixels are given; otherwise ORs `pixels[i] << i` into the
byte. -/
def LSBFirstEncoding.encode_by_bits (pixels : List Nat) : Except PyError Nat :=
  if pixels.length ≠ 8 then .error .valueError
  else .ok ((List.range 8).foldl
    (fun byte_value i => byte_value ||| (pixels.getD i 0) <<< i) 0)

/-- `BitEncodingStrategy.encoding_by_decimal` (lines 244-245), resolved on an
`MSBFirstEncoding` instance. -/
def MSBFirstEncoding.encoding_by_decimal (decimal : Nat) : Except PyError Nat :=
  MSBFirstEncoding.encode_by_bits (BitEncodingStrategy.break_decimal_into_binary decimal)

/-- `BitEncodingStrategy.encoding_by_decimal` (lines 244-245), resolved on an
`LSBFirstEncoding` instance. -/
def LSBFirstEncoding.encoding_by_decimal (decimal : Nat) : Except PyError Nat :=
  LSBFirstEncoding.encode_by_bits (BitEncodingStrategy.break_decimal_into_binary decimal)

/-- Modelled from the spec: `reverse_bits` — the 8-bit bit reversal the spec's
algebraic property (§8) compares against; bit `i` of the input becomes bit
`7 - i` of the output.  Not a repository function; defined here only as the
comparison point for that property. -/
def reverse_bits (b : Nat) : Nat :=
  (List.range 8).foldl (fun acc i => acc ||| ((b >>> i) &&& 1) <<< (7 - i)) 0

/-! ## PixelMatrix (data_structures.py lines 135-672) -/

/-- `PixelMatrix`: the color mode together with the underlying numpy array.
`data[y][x]` is the channel list of the pixel at `(x, y)`; single-channel
modes (MONO, GRAY_8, RGB565) store one-element cells. -/
structure PixelMatrix where
  mode : ColorMode
  data : List (List (List Nat))
deriving DecidableEq, Repr

/-- `matrix.shape[0]`: the height derived from the buffer (line 186). -/
def PixelMatrix.height (m : PixelMatrix) : Nat := m.data.length

/-- `matrix.shape[1]`: the width derived from the buffer (line 186). -/
def PixelMatrix.width (m : PixelMatrix) : Nat := (m.data.getD 0 []).length

/-- Channel count per mode, from the `_VALID_MODES` registry
(data_structures.py lines 70-98): 2-D modes have a single stored scalar. -/
def ColorMode.channels : ColorMode → Nat
  | .MONO => 1
  | .GRAY_8 => 1
  | .RGB_888 => 3
  | .RGB_8888 => 4
  | .RGB565 => 1

/-- Largest storable value per mode: `np.bool_` is 0/1, `np.uint8` is 0-255,
`np.uint16` is 0-65535 (`_VALID_MODES`, lines 70-98). -/
def ColorMode.maxVal : ColorMode → Nat
  | .MONO => 1
  | .GRAY_8 => 255
  | .RGB_888 => 255
  | .RGB_8888 => 255
  | .RGB565 => 65535

/-- The shape/type constraints `PixelMatrix.__init__` validates (lines
147-186): a rectangular `(height, width)` buffer whose cells have the mode's
channel count and whose values fit the mode's storage type. -/
def PixelMatrix.Wellformed (m : PixelMatrix) : Prop :=
  ∀ row ∈ m.data, row.length = m.width ∧
    ∀ cell ∈ row, cell.length = m.mode.channels ∧ ∀ v ∈ cell, v ≤ m.mode.maxVal

instance (m : PixelMatrix) : Decidable m.Wellformed := by
  unfold PixelMatrix.Wellformed
  infer_instance

/-- `PixelMatrix.is_coordinate_out_of_range` (lines 257-267):
`not (0 <= x < width and 0 <= y < height)`. -/
def PixelMatrix.is_coordinate_out_of_range (m : PixelMatrix) (x y : Nat) : Bool :=
  ! (decide (x < m.width) && decide (y < m.height))

/-- `PixelMatrix.get_pixel` (lines 208-228): bounds-check via
`__is_coordinate_out_of_range_ex` (raises `IndexError`), then return the cell
at `[y, x]` normalised to a tuple of channel values. -/
def PixelMatrix.get_pixel (m : PixelMatrix) (x y : Nat) : Except PyError (List Nat) :=
  if m.is_coordinate_out_of_range x y then .error .indexError
  else .ok ((m.data.getD y []).getD x [])

/-- `PixelMatrix.get_region` (lines 352-374): the source checks all four
combinations of `x in [x1, x2]`, `y in [y1, y2]` with
`__is_coordinate_out_of_range_ex` — note that it bounds-checks `x2` and `y2`
themselves as (inclusive) coordinates — then slices
`matrix[y1:y2, x1:x2].copy()` and wraps it in a new `PixelMatrix`. -/
def PixelMatrix.get_region (m : PixelMatrix) (x1 y1 x2 y2 : Nat) :
    Except PyError PixelMatrix :=
  if m.is_coordinate_out_of_range x1 y1 then .error .indexError
  else if m.is_coordinate_out_of_range x1 y2 then .error .indexError
  else if m.is_coordinate_out_of_range x2 y1 then .error .indexError
  else if m.is_coordinate_out_of_range x2 y2 then .error .indexError
  else .ok ⟨m.mode, ((m.data.drop y1).take (y2 - y1)).map fun row =>
    (row.drop x1).take (x2 - x1)⟩

/-- Channel 0 of the stored cell at a coordinate — the value
`matrix.get_pixel(x, y)[0]` reads when the coordinate is in range. -/
def PixelMatrix.pixel_value (m : PixelMatrix) (c : Nat × Nat) : Nat :=
  ((m.data.getD c.2 []).getD c.1 []).getD 0 0

/-! ## Per-mode modulate strategies (modulator.py lines 423-486)

`ModulateStrategy.__init__` (line 424-427) instantiates the scan strategy with
`(matrix.width, matrix.height)` and the bit-encoding strategy class; a
strategy's `modulate` therefore depends on the matrix, the coordinate sequence
produced by the scan strategy, and which bit-encoder class was selected. -/

/-- The bit-encoder class resolved by `find_bit_encoding_strategy`
(modulator.py lines 353-377); `type(self.encoding_strategy)` dispatches on
this. -/
inductive BitEncoderClass where
  | MSBFirstEncoding
  | LSBFirstEncoding
deriving DecidableEq, Repr

/-- Dispatch of `encode_by_bits` through the encoder instance. -/
def BitEncoderClass.encode_by_bits : BitEncoderClass → List Nat → Except PyError Nat
  | .MSBFirstEncoding => MSBFirstEncoding.encode_by_bits
  | .LSBFirstEncoding => LSBFirstEncoding.encode_by_bits

/-- Python's `bytes(iterable_of_ints)`: every element must lie in `[0, 256)`,
otherwise `ValueError` is raised; on success the byte string holds exactly
those values. -/
def bytesOfList (l : List Nat) : Except PyError (List Nat) :=
  if l.all (fun v => decide (v < 256)) then .ok l else .error .valueError

/-- `BinaryModulateStrategy.modulate` (modulator.py lines 436-438):

```
coordinates = self.scan_strategy.get_pixel_order()
return bytes(self.encoding_strategy.encode_by_bits(
    [self.matrix.get_pixel(x, y)[0] for bytes in coordinates]))
```

The comprehension's loop variable is `bytes`, but its body reads `x` and `y`,
names bound nowhere in any enclosing scope; under Python semantics evaluating
the body raises `NameError` at the first iteration, so any non-empty
coordinate sequence yields `NameError`.  With an empty sequence the body is
never evaluated and `encode_by_bits([])` raises `ValueError` (length 0 ≠ 8);
its result, an `int` `n`, would then be passed to `bytes(n)`, which builds `n`
zero bytes. -/
def BinaryModulateStrategy.modulate (matrix : PixelMatrix)
    (coordinates : List (Nat × Nat)) (enc : BitEncoderClass) :
    Except PyError (List Nat) :=
  match coordinates with
  | [] => do
    let byte_value ← enc.encode_by_bits []
    .ok (List.replicate byte_value 0)
  | _ :: _ => .error .nameError

/-- The generator `self.matrix.get_pixel(x, y)[0] for x, y in coordinates`
inside `GreyModulateStrategy.modulate` line 447 (MSB-first branch). -/
def GreyModulateStrategy.raw_scan (matrix : PixelMatrix) :
    List (Nat × Nat) → Except PyError (List Nat)
  | [] => .ok []
  | c :: cs => do
    let p ← matrix.get_pixel c.1 c.2
    let rest ← GreyModulateStrategy.raw_scan matrix cs
    .ok (p.getD 0 0 :: rest)

/-- The generator
`self.encoding_strategy.encoding_by_decimal(self.matrix.get_pixel(x, y)[0])`
inside `GreyModulateStrategy.modulate` line 448 (non-MSB branch, so the
encoder is `LSBFirstEncoding`). -/
def GreyModulateStrategy.reencoded_scan (matrix : PixelMatrix) :
    List (Nat × Nat) → Except PyError (List Nat)
  | [] => .ok []
  | c :: cs => do
    let p ← matrix.get_pixel c.1 c.2
    let b ← LSBFirstEncoding.encoding_by_decimal (p.getD 0 0)
    let rest ← GreyModulateStrategy.reencoded_scan matrix cs
    .ok (b :: rest)

/-- `GreyModulateStrategy.modulate` (modulator.py lines 444-448): if the
encoding strategy is `MSBFirstEncoding`, emit the raw pixel values; otherwise
pass each value through `encoding_by_decimal` first.  Either generator feeds
`bytes(...)`. -/
def GreyModulateStrategy.modulate (matrix : PixelMatrix)
    (coordinates : List (Nat × Nat)) (enc : BitEncoderClass) :
    Except PyError (List Nat) :=
  match enc with
  | .MSBFirstEncoding => do
    bytesOfList (← GreyModulateStrategy.raw_scan matrix coordinates)
  | .LSBFirstEncoding => do
    bytesOfList (← GreyModulateStrategy.reencoded_scan matrix coordinates)

/-- The MSB-first loop of `RgbModulateStrategy.modulate` (lines 458-461):
append every channel value of every scanned pixel. -/
def RgbModulateStrategy.raw_channels (matrix : PixelMatrix) :
    List (Nat × Nat) → Except PyError (List Nat)
  | [] => .ok []
  | c :: cs => do
    let p ← matrix.get_pixel c.1 c.2
    let rest ← RgbModulateStrategy.raw_channels matrix cs
    .ok (p ++ rest)

/-- The inner loop of the non-MSB branch of `RgbModulateStrategy.modulate`
(line 465): each channel value is re-encoded with `encoding_by_decimal` on the
`LSBFirstEncoding` instance. -/
def RgbModulateStrategy.reencode_channel_list :
    List Nat → Except PyError (List Nat)
  | [] => .ok []
  | v :: vs => do
    let b ← LSBFirstEncoding.encoding_by_decimal v
    let rest ← RgbModulateStrategy.reencode_channel_list vs
    .ok (b :: rest)

/-- The non-MSB loop of `RgbModulateStrategy.modulate` (lines 462-465). -/
def RgbModulateStrategy.reencoded_channels (matrix : PixelMatrix) :
    List (Nat × Nat) → Except PyError (List Nat)
  | [] => .ok []
  | c :: cs => do
    let p ← matrix.get_pixel c.1 c.2
    let vals ← RgbModulateStrategy.reencode_channel_list p
    let rest ← RgbModulateStrategy.reencoded_channels matrix cs
    .ok (vals ++ rest)

/-- `RgbModulateStrategy.modulate` (modulator.py lines 455-466): collect the
channel values (re-encoded per channel byte when the encoder is not
`MSBFirstEncoding`) and pass the list to `bytes(...)`. -/
def RgbModulateStrategy.modulate (matrix : PixelMatrix)
    (coordinates : List (Nat × Nat)) (enc : BitEncoderClass) :
    Except PyError (List Nat) :=
  match enc with
  | .MSBFirstEncoding => do
    bytesOfList (← RgbModulateStrategy.raw_channels matrix coordinates)
  | .LSBFirstEncoding => do
    bytesOfList (← RgbModulateStrategy.reencoded_channels matrix coordinates)

/-- `Rgb565ModulateStrategy` (lines 468-470) subclasses `RgbModulateStrategy`
and adds nothing: it inherits `modulate` unchanged. -/
def Rgb565ModulateStrategy.modulate : PixelMatrix → List (Nat × Nat) →
    BitEncoderClass → Except PyError (List Nat) :=
  RgbModulateStrategy.modulate

/-- `Rgb888ModulateStrategy` (lines 472-474), inherited `modulate`. -/
def Rgb888ModulateStrategy.modulate : PixelMatrix → List (Nat × Nat) →
    BitEncoderClass → Except PyError (List Nat) :=
  RgbModulateStrategy.modulate

/-- `Rgb8888ModulateStrategy` (lines 476-478), inherited `modulate`. -/
def Rgb8888ModulateStrategy.modulate : PixelMatrix → List (Nat × Nat) →
    BitEncoderClass → Except PyError (List Nat) :=
  RgbModulateStrategy.modulate

/-- `MODULATE_STRATEGY_MAPPING` (modulator.py lines 480-486). -/
def MODULATE_STRATEGY_MAPPING (mode : ColorMode) :
    PixelMatrix → List (Nat × Nat) → BitEncoderClass → Except PyError (List Nat) :=
  match mode with
  | .MONO => BinaryModulateStrategy.modulate
  | .GRAY_8 => GreyModulateStrategy.modulate
  | .RGB565 => Rgb565ModulateStrategy.modulate
  | .RGB_888 => Rgb888ModulateStrategy.modulate
  | .RGB_8888 => Rgb8888ModulateStrategy.modulate

/-! ## ScreenConfig (data_structures.py lines 910-1137) -/

/-- `ScreenConfig`'s mutable fields.  `metadata` (a free-form
`Dict[str, Any]`) is omitted: no validated invariant mentions it. -/
structure ScreenConfig where
  width : Int
  height : Int
  supported_modes : List ColorMode
  scan_direction : ScanDirection
  bit_order : BitOrder
  row_offset : Int
  col_offset : Int
deriving DecidableEq, Repr

/-- `ScreenConfig._validate_basic_params` (lines 955-967).  The
`isinstance(..., int)` halves of the checks are vacuous here because the
fields are typed. -/
def ScreenConfig._validate_basic_params (c : ScreenConfig) : Except PyError Unit :=
  if c.width ≤ 0 then .error .valueError
  else if c.height ≤ 0 then .error .valueError
  else if c.row_offset < 0 then .error .valueError
  else if c.col_offset < 0 then .error .valueError
  else .ok ()

/-- `ScreenConfig._validate_supported_modes` (lines 969-976): the list must be
non-empty; the per-element `isinstance(mode, ColorMode)` check is vacuous
under typing. -/
def ScreenConfig._validate_supported_modes (c : ScreenConfig) : Except PyError Unit :=
  if c.supported_modes = [] then .error .valueError else .ok ()

/-- `ScreenConfig.__init__` (lines 917-950): assign all fields, then run
`_validate_basic_params` and `_validate_supported_modes`; an instance only
escapes the constructor if both validations pass. -/
def ScreenConfig.init (width height : Int) (supported_modes : List ColorMode)
    (scan_direction : ScanDirection) (bit_order : BitOrder)
    (row_offset col_offset : Int) : Except PyError ScreenConfig :=
  match ScreenConfig._validate_basic_params
      ⟨width, height, supported_modes, scan_direction, bit_order, row_offset, col_offset⟩ with
  | .error e => .error e
  | .ok _ =>
    match ScreenConfig._validate_supported_modes
        ⟨width, height, supported_modes, scan_direction, bit_order, row_offset, col_offset⟩ with
    | .error e => .error e
    | .ok _ =>
      .ok ⟨width, height, supported_modes, scan_direction, bit_order, row_offset, col_offset⟩

/-- The `width` property setter (lines 985-989). -/
def ScreenConfig.set_width (c : ScreenConfig) (value : Int) : Except PyError ScreenConfig :=
  if value ≤ 0 then .error .valueError else .ok { c with width := value }

/-- The `height` property setter (lines 995-999). -/
def ScreenConfig.set_height (c : ScreenConfig) (value : Int) : Except PyError ScreenConfig :=
  if value ≤ 0 then .error .valueError else .ok { c with height := value }

/-- The `scan_direction` setter (lines 1009-1013); its `isinstance` check is
vacuous under typing, so it always commits. -/
def ScreenConfig.set_scan_direction (c : ScreenConfig) (value : ScanDirection) :
    Except PyError ScreenConfig :=
  .ok { c with scan_direction := value }

/-- The `bit_order` setter (lines 1019-1023); `isinstance` check vacuous. -/
def ScreenConfig.set_bit_order (c : ScreenConfig) (value : BitOrder) :
    Except PyError ScreenConfig :=
  .ok { c with bit_order := value }

/-- The `row_offset` setter (lines 1029-1033). -/
def ScreenConfig.set_row_offset (c : ScreenConfig) (value : Int) :
    Except PyError ScreenConfig :=
  if value < 0 then .error .valueError else .ok { c with row_offset := value }

/-- The `col_offset` setter (lines 1039-1043). -/
def ScreenConfig.set_col_offset (c : ScreenConfig) (value : Int) :
    Except PyError ScreenConfig :=
  if value < 0 then .error .valueError else .ok { c with col_offset := value }

/-- `ScreenConfig.add_supported_mode` (lines 1065-1070): append the mode when
it is not already present. -/
def ScreenConfig.add_supported_mode (c : ScreenConfig) (mode : ColorMode) :
    Except PyError ScreenConfig :=
  if mode ∈ c.supported_modes then .ok c
  else .ok { c with supported_modes := c.supported_modes ++ [mode] }

/-- `ScreenConfig.remove_supported_mode` (lines 1072-1077): refuse when only
one mode is left; otherwise remove the mode if present. -/
def ScreenConfig.remove_supported_mode (c : ScreenConfig) (mode : ColorMode) :
    Except PyError ScreenConfig :=
  if c.supported_modes.length ≤ 1 then .error .valueError
  else .ok { c with supported_modes := c.supported_modes.erase mode }

/-- The dictionary consumed by `ScreenConfig.from_dict` (lines 1120-1132):
`width`, `height` and `supported_modes` are required keys; the rest fall back
to `data.get(...)` defaults. -/
structure ConfigDict where
  width : Int
  height : Int
  supported_modes : List ColorMode
  scan_direction : Option ScanDirection
  bit_order : Option BitOrder
  row_offset : Option Int
  col_offset : Option Int
deriving DecidableEq, Repr

/-- `ScreenConfig.from_dict` (lines 1120-1132): delegate to the constructor
with defaults `HORIZONTAL`, `MSB_FIRST`, `0`, `0`. -/
def ScreenConfig.from_dict (data : ConfigDict) : Except PyError ScreenConfig :=
  ScreenConfig.init data.width data.height data.supported_modes
    (data.scan_direction.getD .HORIZONTAL) (data.bit_order.getD .MSB_FIRST)
    (data.row_offset.getD 0) (data.col_offset.getD 0)

/-- The public mutating operations of `ScreenConfig` whose preservation of the
validity invariant is claimed (the width/height/scan_direction/bit_order/
row_offset/col_offset setters and the supported-mode management methods). -/
inductive ConfigOp where
  | set_width (value : Int)
  | set_height (value : Int)
  | set_scan_direction (value : ScanDirection)
  | set_bit_order (value : BitOrder)
  | set_row_offset (value : Int)
  | set_col_offset (value : Int)
  | add_supported_mode (mode : ColorMode)
  | remove_supported_mode (mode : ColorMode)
deriving DecidableEq, Repr

/-- Apply one public mutating operation. -/
def ConfigOp.apply (c : ScreenConfig) : ConfigOp → Except PyError ScreenConfig
  | .set_width v => c.set_width v
  | .set_height v => c.set_height v
  | .set_scan_direction v => c.set_scan_direction v
  | .set_bit_order v => c.set_bit_order v
  | .set_row_offset v => c.set_row_offset v
  | .set_col_offset v => c.set_col_offset v
  | .add_supported_mode m => c.add_supported_mode m
  | .remove_supported_mode m => c.remove_supported_mode m

/-- A `ScreenConfig` state reachable through the public API: produced by the
constructor or `from_dict`, or obtained from a reachable state by a successful
public mutating operation. -/
inductive ScreenConfig.Reachable : ScreenConfig → Prop
  | init {w h ms sd bo ro co c} :
      ScreenConfig.init w h ms sd bo ro co = .ok c → ScreenConfig.Reachable c
  | from_dict {d c} :
      ScreenConfig.from_dict d = .ok c → ScreenConfig.Reachable c
  | step {c op c'} :
      ScreenConfig.Reachable c → ConfigOp.apply c op = .ok c' → ScreenConfig.Reachable c'

/-- The claimed validity predicate: positive geometry and at least one
supported color mode. -/
def ScreenConfig.Valid (c : ScreenConfig) : Prop :=
  0 < c.width ∧ 0 < c.height ∧ c.supported_modes ≠ []

/-! ## Modulator (modulator.py lines 315-377, 488-557) -/

/-- The identifiers looked up as attributes of the `ScanDirection` enum when
`find_scan_strategy` builds its `strategy_map` dict literal
(modulator.py lines 334-341). -/
inductive ScanDirectionName where
  | HORIZONTAL
  | HORIZONTAL_REVERSED
  | VERTICAL
  | VERTICAL_REVERSED
  | VERTICAL_BY_PAGE
  | VERTICAL_REVERSED_BY_PAGE
deriving DecidableEq, Repr

/-- Python attribute access `ScanDirection.<name>`: the enum's members are
`HORIZONTAL`, `VERTICAL`, `HORIZONTAL_REVERSED`, `VERTICAL_REVERSED`,
`BY_PAGE`, `BY_PAGE_REVERSED` (data_structures.py lines 24-35); accessing
`VERTICAL_BY_PAGE` or `VERTICAL_REVERSED_BY_PAGE` raises `AttributeError`
because no such member exists. -/
def ScanDirection.getattr : ScanDirectionName → Except PyError ScanDirection
  | .HORIZONTAL => .ok .HORIZONTAL
  | .HORIZONTAL_REVERSED => .ok .HORIZONTAL_REVERSED
  | .VERTICAL => .ok .VERTICAL
  | .VERTICAL_REVERSED => .ok .VERTICAL_REVERSED
  | .VERTICAL_BY_PAGE => .error .attributeError
  | .VERTICAL_REVERSED_BY_PAGE => .error .attributeError

/-- The scan-strategy classes of modulator.py. -/
inductive ScanStrategyClass where
  | HorizontalScanStrategy
  | HorizontalReversedScanStrategy
  | VerticalScanStrategy
  | VerticalReversedScanStrategy
  | VerticalScanStrategyByPage
  | VerticalReversedScanStrategyByPage
deriving DecidableEq, Repr

/-- `find_scan_strategy` (modulator.py lines 315-350): evaluate the
`strategy_map` dict literal — each key expression
`ScanDirection.<NAME>` is an attribute access evaluated left-to-right — then
look the configured direction up, raising `ValueError` when absent. -/
def find_scan_strategy (config : ScreenConfig) : Except PyError ScanStrategyClass := do
  let k1 ← ScanDirection.getattr .HORIZONTAL
  let k2 ← ScanDirection.getattr .HORIZONTAL_REVERSED
  let k3 ← ScanDirection.getattr .VERTICAL
  let k4 ← ScanDirection.getattr .VERTICAL_REVERSED
  let k5 ← ScanDirection.getattr .VERTICAL_BY_PAGE
  let k6 ← ScanDirection.getattr .VERTICAL_REVERSED_BY_PAGE
  let strategy_map : List (ScanDirection × ScanStrategyClass) :=
    [(k1, .HorizontalScanStrategy), (k2, .HorizontalReversedScanStrategy),
     (k3, .VerticalScanStrategy), (k4, .VerticalReversedScanStrategy),
     (k5, .VerticalScanStrategyByPage), (k6, .VerticalReversedScanStrategyByPage)]
  match strategy_map.lookup config.scan_direction with
  | some cls => .ok cls
  | none => .error .valueError

/-- `find_bit_encoding_strategy` (modulator.py lines 353-377); the `else`
branch raising `ValueError` is unreachable for the closed two-member enum. -/
def find_bit_encoding_strategy (config : ScreenConfig) : Except PyError BitEncoderClass :=
  match config.bit_order with
  | .MSB_FIRST => .ok .MSBFirstEncoding
  | .LSB_FIRST => .ok .LSBFirstEncoding

/-- Instantiating a scan-strategy class with `(width, height)` and calling its
`get_pixel_order` (modulator.py line 426 and line 536's
`modulate_strategy.modulate()` chain). -/
def ScanStrategyClass.get_pixel_order :
    ScanStrategyClass → Nat → Nat → Except PyError (List (Nat × Nat))
  | .HorizontalScanStrategy, w, h => .ok (HorizontalScanStrategy.get_pixel_order w h)
  | .HorizontalReversedScanStrategy, w, h =>
      .ok (HorizontalReversedScanStrategy.get_pixel_order w h)
  | .VerticalScanStrategy, w, h => .ok (VerticalScanStrategy.get_pixel_order w h)
  | .VerticalReversedScanStrategy, w, h =>
      .ok (VerticalReversedScanStrategy.get_pixel_order w h)
  | .VerticalScanStrategyByPage, w, h => VerticalScanStrategyByPage.get_pixel_order w h
  | .VerticalReversedScanStrategyByPage, w, h =>
      VerticalReversedScanStrategyByPage.get_pixel_order w h

/-- Whether a scan-strategy class is one of the two page-based variants
(which impose the `height % 8 == 0` geometry constraint). -/
def ScanStrategyClass.isPage : ScanStrategyClass → Bool
  | .VerticalScanStrategyByPage => true
  | .VerticalReversedScanStrategyByPage => true
  | _ => false

/-- `Modulator.__validate_input` (modulator.py lines 538-557): the only check
performed is that the matrix resolution equals the screen resolution; despite
its docstring, no `supported_modes` membership check exists in the body. -/
def Modulator.validate_input (config : ScreenConfig) (matrix : PixelMatrix) :
    Except PyError Unit :=
  if ((matrix.width : Int), (matrix.height : Int)) ≠ (config.width, config.height)
  then .error .valueError else .ok ()

/-- `Modulator.modulate` (modulator.py lines 508-536): validate the input,
resolve the scan and bit-encoding strategy classes, instantiate the per-mode
modulate strategy from `MODULATE_STRATEGY_MAPPING`, and run it. -/
def Modulator.modulate (config : ScreenConfig) (matrix : PixelMatrix) :
    Except PyError (List Nat) := do
  Modulator.validate_input config matrix
  let scan_strategy ← find_scan_strategy config
  let bit_encoder ← find_bit_encoding_strategy config
  let coordinates ← scan_strategy.get_pixel_order matrix.width matrix.height
  MODULATE_STRATEGY_MAPPING matrix.mode matrix coordinates bit_encoder

/-! ## Heap model for aliasing (claim about defensive copies)

Whether a reader of `PixelMatrix` hands out the internal numpy array itself or
a copy is a heap-aliasing question, so these operations are modelled against
an explicit store of numpy buffers.  A buffer is a 2-D scalar array
`buf[y][x]`; a `PixelMatrix` holds a reference into the store. -/

/-- The contents of one numpy array object. -/
abbrev NumpyBuf := List (List Nat)

/-- The heap: every live numpy array object, addressed by index. -/
structure Store where
  bufs : List NumpyBuf
deriving DecidableEq, Repr

/-- Dereference an array object. -/
def Store.read (s : Store) (r : Nat) : NumpyBuf := s.bufs.getD r []

/-- Allocate a fresh array object (e.g. the result of `.copy()`), returning
the new store and the fresh reference. -/
def Store.alloc (s : Store) (b : NumpyBuf) : Store × Nat :=
  (⟨s.bufs ++ [b]⟩, s.bufs.length)

/-- Overwrite the array object at `r` in place. -/
def Store.write (s : Store) (r : Nat) (b : NumpyBuf) : Store :=
  ⟨s.bufs.set r b⟩

/-- In-place element assignment `arr[y][x] = v` performed by external code on
an array it obtained from a reader. -/
def Store.mutateCell (s : Store) (r x y v : Nat) : Store :=
  s.write r ((s.read r).set y (((s.read r).getD y []).set x v))

/-- A `PixelMatrix` as a heap object: the reference to its private
`__matrix` buffer plus its geometry. -/
structure PixelMatrixRef where
  ref : Nat
  width : Nat
  height : Nat
deriving DecidableEq, Repr

/-- `PixelMatrix.get_pixel` against the store (data_structures.py lines
208-228): bounds check, then read `__matrix[y, x]`; the scalar is returned by
value (as a fresh 1-tuple), never as an alias. -/
def PixelMatrixRef.get_pixel (s : Store) (m : PixelMatrixRef) (x y : Nat) :
    Except PyError Nat :=
  if x < m.width ∧ y < m.height then .ok (((s.read m.ref).getD y []).getD x 0)
  else .error .indexError

/-- The `matrix` property (lines 203-206): `return self.__matrix.copy()` — a
freshly allocated copy of the private buffer. -/
def PixelMatrixRef.matrix (s : Store) (m : PixelMatrixRef) : Store × Nat :=
  s.alloc (s.read m.ref)

/-- `PixelMatrix.to_numpy` (lines 504-510): `return self.__matrix` — the
private buffer itself, no copy (its own docstring says it returns a view). -/
def PixelMatrixRef.to_numpy (s : Store) (m : PixelMatrixRef) : Nat :=
  m.ref

/-- `PixelMatrix.get_region` against the store (lines 352-374): the four
corner bounds checks, then `matrix[y1:y2, x1:x2].copy()` wrapped in a new
`PixelMatrix` — a freshly allocated buffer. -/
def PixelMatrixRef.get_region (s : Store) (m : PixelMatrixRef) (x1 y1 x2 y2 : Nat) :
    Except PyError (Store × PixelMatrixRef) :=
  if ¬ (x1 < m.width ∧ y1 < m.height) then .error .indexError
  else if ¬ (x1 < m.width ∧ y2 < m.height) then .error .indexError
  else if ¬ (x2 < m.width ∧ y1 < m.height) then .error .indexError
  else if ¬ (x2 < m.width ∧ y2 < m.height) then .error .indexError
  else
    let sliced := (((s.read m.ref).drop y1).take (y2 - y1)).map fun row =>
      (row.drop x1).take (x2 - x1)
    .ok ((s.alloc sliced).1, ⟨(s.alloc sliced).2, x2 - x1, y2 - y1⟩)

/-- `PixelMatrix.to_bytes` (lines 512-524) returns a Python `bytes` object —
an immutable value, modelled as a pure list; no mutable alias can exist. -/
def PixelMatrixRef.to_bytes (s : Store) (m : PixelMatrixRef) : List Nat :=
  ((s.read m.ref).flatMap fun row => row)

/-! ## Helper lemmas -/

theorem length_flatMap_const {α β : Type} {l : List α} {f : α → List β} {n : Nat}
    (h : ∀ a ∈ l, (f a).length = n) : (l.flatMap f).length = l.length * n := by
  induction l with
  | nil => simp
  | cons a t ih =>
    rw [List.flatMap_cons, List.length_append, h a (by simp),
      ih (fun b hb => h b (by simp [hb])), List.length_cons, Nat.succ_mul, Nat.add_comm]

theorem nodup_flatMap_of {α β : Type} {l : List α} {f : α → List β}
    (hl : l.Nodup) (hf : ∀ a ∈ l, (f a).Nodup)
    (hd : ∀ a ∈ l, ∀ a' ∈ l, a ≠ a' → ∀ c ∈ f a, c ∉ f a') :
    (l.flatMap f).Nodup := by
  rw [List.nodup_flatMap]
  refine ⟨hf, ?_⟩
  exact hl.imp_of_mem fun {a b} ha hb hne c hca hcb => hd a ha b hb hne c hca hcb

theorem nodup_flatMap_map {α β γ : Type} {l₁ : List α} {l₂ : List β} {g : α → β → γ}
    (h₁ : l₁.Nodup) (h₂ : l₂.Nodup)
    (hg : ∀ a b a' b', g a b = g a' b' → a = a' ∧ b = b') :
    (l₁.flatMap fun a => l₂.map (g a)).Nodup := by
  refine nodup_flatMap_of h₁ (fun a _ => List.Nodup.map_on ?_ h₂) ?_
  · exact fun x _ y _ hxy => (hg a x a y hxy).2
  · intro a _ a' _ hne c hc hc'
    obtain ⟨b, _, rfl⟩ := List.mem_map.mp hc
    obtain ⟨b', _, hEq⟩ := List.mem_map.mp hc'
    exact hne ((hg a' b' a b hEq).1.symm)

theorem getD_set_ne {α : Type} (l : List α) {i j : Nat} (b d : α) (h : i ≠ j) :
    (l.set i b).getD j d = l.getD j d := by
  simp [List.getD, List.getElem?_set_ne h]

theorem getD_append_left {α : Type} (l₁ l₂ : List α) {i : Nat} (d : α)
    (h : i < l₁.length) : (l₁ ++ l₂).getD i d = l₁.getD i d := by
  simp [List.getD, List.getElem?_append_left h]

theorem erase_ne_nil {α : Type} [DecidableEq α] {l : List α} (a : α)
    (h : 1 < l.length) : l.erase a ≠ [] := by
  intro hnil
  have := List.length_erase a l
  rw [hnil] at this
  split at this <;> simp at this <;> omega

theorem horizontal_scan_props (w h : Nat) :
    (HorizontalScanStrategy.get_pixel_order w h).length = w * h ∧
    (HorizontalScanStrategy.get_pixel_order w h).Nodup ∧
    ∀ x y : Nat, ((x, y) ∈ HorizontalScanStrategy.get_pixel_order w h ↔ x < w ∧ y < h) := by
  unfold HorizontalScanStrategy.get_pixel_order
  refine ⟨?_, ?_, ?_⟩
  · rw [length_flatMap_const (fun a _ => by simp :
      ∀ a ∈ List.range h, ((List.range w).map fun x => (x, a)).length = w),
      List.length_range, Nat.mul_comm]
  · exact nodup_flatMap_map (List.nodup_range h) (List.nodup_range w)
      (fun a b a' b' hEq => by simp [Prod.ext_iff] at hEq; exact ⟨hEq.2, hEq.1⟩)
  · intro x y
    simp only [List.mem_flatMap, List.mem_map, List.mem_range, Prod.mk.injEq]
    constructor
    · rintro ⟨b, hb, a, ha, rfl, rfl⟩
      exact ⟨ha, hb⟩
    · rintro ⟨hx, hy⟩
      exact ⟨y, hy, x, hx, rfl, rfl⟩

theorem horizontal_reversed_scan_props (w h : Nat) :
    (HorizontalReversedScanStrategy.get_pixel_order w h).length = w * h ∧
    (HorizontalReversedScanStrategy.get_pixel_order w h).Nodup ∧
    ∀ x y : Nat,
      ((x, y) ∈ HorizontalReversedScanStrategy.get_pixel_order w h ↔ x < w ∧ y < h) := by
  unfold HorizontalReversedScanStrategy.get_pixel_order
  refine ⟨?_, ?_, ?_⟩
  · rw [length_flatMap_const (fun a _ => by simp :
      ∀ a ∈ List.range h, (((List.range w).reverse).map fun x => (x, a)).length = w),
      List.length_range, Nat.mul_comm]
  · exact nodup_flatMap_map (List.nodup_range h) (List.nodup_reverse.mpr (List.nodup_range w))
      (fun a b a' b' hEq => by simp [Prod.ext_iff] at hEq; exact ⟨hEq.2, hEq.1⟩)
  · intro x y
    simp only [List.mem_flatMap, List.mem_map, List.mem_reverse, List.mem_range,
      Prod.mk.injEq]
    constructor
    · rintro ⟨b, hb, a, ha, rfl, rfl⟩
      exact ⟨ha, hb⟩
    · rintro ⟨hx, hy⟩
      exact ⟨y, hy, x, hx, rfl, rfl⟩

theorem vertical_scan_props (w h : Nat) :
    (VerticalScanStrategy.get_pixel_order w h).length = w * h ∧
    (VerticalScanStrategy.get_pixel_order w h).Nodup ∧
    ∀ x y : Nat, ((x, y) ∈ VerticalScanStrategy.get_pixel_order w h ↔ x < w ∧ y < h) := by
  unfold VerticalScanStrategy.get_pixel_order
  refine ⟨?_, ?_, ?_⟩
  · rw [length_flatMap_const (fun a _ => by simp :
      ∀ a ∈ List.range w, ((List.range h).map fun y => (a, y)).length = h),
      List.length_range]
  · exact nodup_flatMap_map (List.nodup_range w) (List.nodup_range h)
      (fun a b a' b' hEq => by simp [Prod.ext_iff] at hEq; exact ⟨hEq.1, hEq.2⟩)
  · intro x y
    simp only [List.mem_flatMap, List.mem_map, List.mem_range, Prod.mk.injEq]
    constructor
    · rintro ⟨a, ha, b, hb, rfl, rfl⟩
      exact ⟨ha, hb⟩
    · rintro ⟨hx, hy⟩
      exact ⟨x, hx, y, hy, rfl, rfl⟩

theorem vertical_reversed_scan_props (w h : Nat) :
    (VerticalReversedScanStrategy.get_pixel_order w h).length = w * h ∧
    (VerticalReversedScanStrategy.get_pixel_order w h).Nodup ∧
    ∀ x y : Nat,
      ((x, y) ∈ VerticalReversedScanStrategy.get_pixel_order w h ↔ x < w ∧ y < h) := by
  unfold VerticalReversedScanStrategy.get_pixel_order
  refine ⟨?_, ?_, ?_⟩
  · rw [length_flatMap_const (fun a _ => by simp :
      ∀ a ∈ List.range w, (((List.range h).reverse).map fun y => (a, y)).length = h),
      List.length_range]
  · exact nodup_flatMap_map (List.nodup_range w) (List.nodup_reverse.mpr (List.nodup_range h))
      (fun a b a' b' hEq => by simp [Prod.ext_iff] at hEq; exact ⟨hEq.1, hEq.2⟩)
  · intro x y
    simp only [List.mem_flatMap, List.mem_map, List.mem_reverse, List.mem_range,
      Prod.mk.injEq]
    constructor
    · rintro ⟨a, ha, b, hb, rfl, rfl⟩
      exact ⟨ha, hb⟩
    · rintro ⟨hx, hy⟩
      exact ⟨x, hx, y, hy, rfl, rfl⟩

theorem by_page_scan_props (w h : Nat) (hh : h % 8 = 0) :
    ∃ l, VerticalScanStrategyByPage.get_pixel_order w h = .ok l ∧
      l.length = w * h ∧ l.Nodup ∧ ∀ x y : Nat, ((x, y) ∈ l ↔ x < w ∧ y < h) := by
  refine ⟨(List.range (h / 8)).flatMap fun pageOrder =>
    (List.range w).flatMap fun x => (List.range 8).map fun y => (x, pageOrder * 8 + y),
    ?_, ?_, ?_, ?_⟩
  · unfold VerticalScanStrategyByPage.get_pixel_order
    rw [if_neg (show ¬ (h % 8 ≠ 0) by omega)]
  · have hinner : ∀ p ∈ List.range (h / 8),
        ((List.range w).flatMap fun x =>
          (List.range 8).map fun y => (x, p * 8 + y)).length = w * 8 := by
      intro p _
      rw [length_flatMap_const (fun x _ => by simp :
        ∀ x ∈ List.range w, ((List.range 8).map fun y => (x, p * 8 + y)).length = 8),
        List.length_range]
    rw [length_flatMap_const hinner, List.length_range]
    obtain ⟨k, rfl⟩ : ∃ k, h = 8 * k := ⟨h / 8, by omega⟩
    rw [Nat.mul_div_cancel_left k (by norm_num)]
    ring
  · refine nodup_flatMap_of (List.nodup_range _) ?_ ?_
    · intro p _
      exact nodup_flatMap_map (List.nodup_range w) (List.nodup_range 8)
        (fun a b a' b' hEq => by simp [Prod.ext_iff] at hEq; omega)
    · intro p _ p' _ hne c hc hc'
      obtain ⟨cx, cy⟩ := c
      simp only [List.mem_flatMap, List.mem_map, List.mem_range, Prod.mk.injEq] at hc hc'
      obtain ⟨x, hx, y, hy, hxe, hye⟩ := hc
      obtain ⟨x', hx', y', hy', hxe', hye'⟩ := hc'
      omega
  · intro x y
    simp only [List.mem_flatMap, List.mem_map, List.mem_range, Prod.mk.injEq]
    constructor
    · rintro ⟨p, hp, x', hx', y0, hy0, rfl, rfl⟩
      exact ⟨hx', by omega⟩
    · rintro ⟨hx, hy⟩
      exact ⟨y / 8, by omega, x, hx, y % 8, by omega, rfl, by omega⟩

theorem by_page_reversed_scan_props (w h : Nat) (hh : h % 8 = 0) :
    ∃ l, VerticalReversedScanStrategyByPage.get_pixel_order w h = .ok l ∧
      l.length = w * h ∧ l.Nodup ∧ ∀ x y : Nat, ((x, y) ∈ l ↔ x < w ∧ y < h) := by
  refine ⟨(List.range (h / 8)).flatMap fun pageOrder =>
    (List.range w).flatMap fun x =>
      (List.range 8).reverse.map fun y => (x, pageOrder * 8 + y),
    ?_, ?_, ?_, ?_⟩
  · unfold VerticalReversedScanStrategyByPage.get_pixel_order
    rw [if_neg (show ¬ (h % 8 ≠ 0) by omega)]
  · have hinner : ∀ p ∈ List.range (h / 8),
        ((List.range w).flatMap fun x =>
          (List.range 8).reverse.map fun y => (x, p * 8 + y)).length = w * 8 := by
      intro p _
      rw [length_flatMap_const (fun x _ => by simp :
        ∀ x ∈ List.range w,
          (((List.range 8).reverse).map fun y => (x, p * 8 + y)).length = 8),
        List.length_range]
    rw [length_flatMap_const hinner, List.length_range]
    obtain ⟨k, rfl⟩ : ∃ k, h = 8 * k := ⟨h / 8, by omega⟩
    rw [Nat.mul_div_cancel_left k (by norm_num)]
    ring
  · refine nodup_flatMap_of (List.nodup_range _) ?_ ?_
    · intro p _
      exact nodup_flatMap_map (List.nodup_range w) (List.nodup_reverse.mpr (List.nodup_range 8))
        (fun a b a' b' hEq => by simp [Prod.ext_iff] at hEq; omega)
    · intro p _ p' _ hne c hc hc'
      obtain ⟨cx, cy⟩ := c
      simp only [List.mem_flatMap, List.mem_map, List.mem_reverse, List.mem_range,
        Prod.mk.injEq] at hc hc'
      obtain ⟨x, hx, y, hy, hxe, hye⟩ := hc
      obtain ⟨x', hx', y', hy', hxe', hye'⟩ := hc'
      omega
  · intro x y
    simp only [List.mem_flatMap, List.mem_map, List.mem_reverse, List.mem_range,
      Prod.mk.injEq]
    constructor
    · rintro ⟨p, hp, x', hx', y0, hy0, rfl, rfl⟩
      exact ⟨hx', by omega⟩
    · rintro ⟨hx, hy⟩
      exact ⟨y / 8, by omega, x, hx, y % 8, by omega, rfl, by omega⟩


theorem lsb_reencode_eq_reverse_bits :
    ∀ v < 256, LSBFirstEncoding.encoding_by_decimal v = .ok (reverse_bits v) := by
  decide

theorem reverse_bits_lt : ∀ v < 256, reverse_bits v < 256 := by
  decide

theorem bytesOfList_ok {l : List Nat} (h : ∀ v ∈ l, v < 256) : bytesOfList l = .ok l := by
  unfold bytesOfList
  rw [if_pos]
  exact List.all_eq_true.mpr fun v hv => by simpa using h v hv

theorem wellformed_pixel_value_le {m : PixelMatrix} (hwf : m.Wellformed)
    {x y : Nat} (hx : x < m.width) (hy : y < m.height) :
    m.pixel_value (x, y) ≤ m.mode.maxVal := by
  have hrow : m.data.getD y [] ∈ m.data := by
    rw [List.getD_eq_getElem m.data [] hy]
    exact List.getElem_mem hy
  obtain ⟨hlen, hcells⟩ := hwf _ hrow
  have hx' : x < (m.data.getD y []).length := by rw [hlen]; exact hx
  have hcell : (m.data.getD y []).getD x [] ∈ m.data.getD y [] := by
    rw [List.getD_eq_getElem _ _ hx']
    exact List.getElem_mem hx'
  obtain ⟨_, hvals⟩ := hcells _ hcell
  unfold PixelMatrix.pixel_value
  cases hcel : (m.data.getD y []).getD x [] with
  | nil => simp
  | cons v vs =>
    have hvmem : v ∈ (m.data.getD y []).getD x [] := by rw [hcel]; simp
    simpa using hvals v hvmem

theorem grey_raw_scan_ok (m : PixelMatrix) (coords : List (Nat × Nat))
    (hc : ∀ c ∈ coords, c.1 < m.width ∧ c.2 < m.height) :
    GreyModulateStrategy.raw_scan m coords = .ok (coords.map m.pixel_value) := by
  induction coords with
  | nil => rfl
  | cons c cs ih =>
    have hcx := hc c (by simp)
    have hget : m.get_pixel c.1 c.2 = .ok ((m.data.getD c.2 []).getD c.1 []) := by
      unfold PixelMatrix.get_pixel PixelMatrix.is_coordinate_out_of_range
      simp [hcx.1, hcx.2]
    simp only [GreyModulateStrategy.raw_scan, List.map_cons]
    rw [hget, ih fun d hd => hc d (by simp [hd])]
    rfl

theorem grey_reencoded_scan_ok (m : PixelMatrix) (coords : List (Nat × Nat))
    (hc : ∀ c ∈ coords, c.1 < m.width ∧ c.2 < m.height)
    (hv : ∀ c ∈ coords, m.pixel_value c < 256) :
    GreyModulateStrategy.reencoded_scan m coords
      = .ok (coords.map fun c => reverse_bits (m.pixel_value c)) := by
  induction coords with
  | nil => rfl
  | cons c cs ih =>
    have hcx := hc c (by simp)
    have hget : m.get_pixel c.1 c.2 = .ok ((m.data.getD c.2 []).getD c.1 []) := by
      unfold PixelMatrix.get_pixel PixelMatrix.is_coordinate_out_of_range
      simp [hcx.1, hcx.2]
    have henc : LSBFirstEncoding.encoding_by_decimal
        (((m.data.getD c.2 []).getD c.1 []).getD 0 0)
          = .ok (reverse_bits (m.pixel_value c)) :=
      lsb_reencode_eq_reverse_bits _ (hv c (by simp))
    simp only [GreyModulateStrategy.reencoded_scan, List.map_cons]
    rw [hget]
    show (do
      let b ← LSBFirstEncoding.encoding_by_decimal
        (((m.data.getD c.2 []).getD c.1 []).getD 0 0)
      let rest ← GreyModulateStrategy.reencoded_scan m cs
      Except.ok (b :: rest)) = _
    rw [henc, ih (fun d hd => hc d (by simp [hd])) (fun d hd => hv d (by simp [hd]))]
    rfl

theorem validate_basic_params_ok {c : ScreenConfig}
    (h : c._validate_basic_params = .ok ()) : 0 < c.width ∧ 0 < c.height := by
  unfold ScreenConfig._validate_basic_params at h
  split_ifs at h with h1 h2 h3 h4
  omega

theorem validate_supported_modes_ok {c : ScreenConfig}
    (h : c._validate_supported_modes = .ok ()) : c.supported_modes ≠ [] := by
  unfold ScreenConfig._validate_supported_modes at h
  split_ifs at h with h1
  exact h1

theorem init_ok_valid {w h : Int} {ms : List ColorMode} {sd : ScanDirection}
    {bo : BitOrder} {ro co : Int} {c : ScreenConfig}
    (hinit : ScreenConfig.init w h ms sd bo ro co = .ok c) : c.Valid := by
  unfold ScreenConfig.init at hinit
  cases hb : ScreenConfig._validate_basic_params ⟨w, h, ms, sd, bo, ro, co⟩ with
  | error e => rw [hb] at hinit; simp at hinit
  | ok u =>
    rw [hb] at hinit
    cases hm : ScreenConfig._validate_supported_modes ⟨w, h, ms, sd, bo, ro, co⟩ with
    | error e => rw [hm] at hinit; simp at hinit
    | ok u' =>
      rw [hm] at hinit
      simp only [Except.ok.injEq] at hinit
      subst hinit
      cases u
      obtain ⟨hww, hhh⟩ := validate_basic_params_ok hb
      exact ⟨hww, hhh, validate_supported_modes_ok hm⟩

theorem apply_ok_valid {c c' : ScreenConfig} {op : ConfigOp}
    (hv : c.Valid) (h : ConfigOp.apply c op = .ok c') : c'.Valid := by
  obtain ⟨hw, hh, hm⟩ := hv
  cases op with
  | set_width v =>
    simp only [ConfigOp.apply, ScreenConfig.set_width] at h
    split_ifs at h with h1
    injection h with h2
    subst h2
    refine ⟨?_, hh, hm⟩
    show (0 : Int) < v
    omega
  | set_height v =>
    simp only [ConfigOp.apply, ScreenConfig.set_height] at h
    split_ifs at h with h1
    injection h with h2
    subst h2
    refine ⟨hw, ?_, hm⟩
    show (0 : Int) < v
    omega
  | set_scan_direction v =>
    simp only [ConfigOp.apply, ScreenConfig.set_scan_direction] at h
    injection h with h2
    subst h2
    exact ⟨hw, hh, hm⟩
  | set_bit_order v =>
    simp only [ConfigOp.apply, ScreenConfig.set_bit_order] at h
    injection h with h2
    subst h2
    exact ⟨hw, hh, hm⟩
  | set_row_offset v =>
    simp only [ConfigOp.apply, ScreenConfig.set_row_offset] at h
    split_ifs at h with h1
    injection h with h2
    subst h2
    exact ⟨hw, hh, hm⟩
  | set_col_offset v =>
    simp only [ConfigOp.apply, ScreenConfig.set_col_offset] at h
    split_ifs at h with h1
    injection h with h2
    subst h2
    exact ⟨hw, hh, hm⟩
  | add_supported_mode mo =>
    simp only [ConfigOp.apply, ScreenConfig.add_supported_mode] at h
    split_ifs at h with h1
    · injection h with h2
      subst h2
      exact ⟨hw, hh, hm⟩
    · injection h with h2
      subst h2
      exact ⟨hw, hh, by simp⟩
  | remove_supported_mode mo =>
    simp only [ConfigOp.apply, ScreenConfig.remove_supported_mode] at h
    split_ifs at h with h1
    injection h with h2
    subst h2
    exact ⟨hw, hh, erase_ne_nil mo (by omega)⟩

theorem read_write_fresh (s : Store) (c b : NumpyBuf) {r : Nat}
    (hr : r < s.bufs.length) :
    (Store.write ⟨s.bufs ++ [c]⟩ s.bufs.length b).read r = s.read r := by
  unfold Store.write Store.read
  dsimp only
  rw [getD_set_ne _ b [] (by omega), getD_append_left _ _ [] hr]

/-! ## Claim theorems -/

/-- C1: the claim says every one of the six `ScanDirection` members resolves
to a scan-strategy class without error.  In the source, building the
`strategy_map` dict literal evaluates `ScanDirection.VERTICAL_BY_PAGE` and
`ScanDirection.VERTICAL_REVERSED_BY_PAGE`, names the enum does not define
(its page members are `BY_PAGE` and `BY_PAGE_REVERSED`), so
`find_scan_strategy` raises `AttributeError` for every configuration —
including all six legitimate members — before any lookup happens. -/
theorem C1_find_scan_strategy_always_attribute_error (config : ScreenConfig) :
    find_scan_strategy config = .error .attributeError := rfl

/-- C2: the claim says a resolution-matched matrix whose mode is missing from
`config.supported_modes` makes `Modulator.modulate` fail with an
UnsupportedMode error.  At a 1×1 GRAY_8 matrix against a 1×1 screen that
supports only MONO: `__validate_input` succeeds (it checks only the
resolution, despite its docstring claiming a mode check), and the call fails
later with the `AttributeError` of `find_scan_strategy`, not with any
unsupported-mode error — no `supported_modes` check is ever executed. -/
theorem C2_modulate_skips_supported_mode_check :
    Modulator.validate_input ⟨1, 1, [ColorMode.MONO], .HORIZONTAL, .MSB_FIRST, 0, 0⟩
      ⟨.GRAY_8, [[[0]]]⟩ = .ok () ∧
    ColorMode.GRAY_8 ∉
      (ScreenConfig.mk 1 1 [ColorMode.MONO] .HORIZONTAL .MSB_FIRST 0 0).supported_modes ∧
    Modulator.modulate ⟨1, 1, [ColorMode.MONO], .HORIZONTAL, .MSB_FIRST, 0, 0⟩
      ⟨.GRAY_8, [[[0]]]⟩ = .error .attributeError := by
  decide

/-- C3: the claim says an RGB565 matrix yields two bytes per pixel, high byte
then low byte, for either bit order — so a single pixel `0xFFFF` yields
`[0xFF, 0xFF]`.  The inherited `RgbModulateStrategy.modulate` instead appends
the raw 16-bit value as one element: with MSB-first, `bytes([65535])` raises
`ValueError` (65535 is not a byte); with LSB-first the value is first
bit-reversed through `encoding_by_decimal`, which collapses it to the single
byte `0xFF`, producing `[0xFF]` — one byte, not two.  No high/low-byte split
exists anywhere in the strategy. -/
theorem C3_rgb565_single_pixel_not_two_bytes :
    Rgb565ModulateStrategy.modulate ⟨.RGB565, [[[65535]]]⟩
      (HorizontalScanStrategy.get_pixel_order (PixelMatrix.width ⟨.RGB565, [[[65535]]]⟩)
        (PixelMatrix.height ⟨.RGB565, [[[65535]]]⟩)) .MSBFirstEncoding
      = .error .valueError ∧
    Rgb565ModulateStrategy.modulate ⟨.RGB565, [[[65535]]]⟩
      (HorizontalScanStrategy.get_pixel_order (PixelMatrix.width ⟨.RGB565, [[[65535]]]⟩)
        (PixelMatrix.height ⟨.RGB565, [[[65535]]]⟩)) .LSBFirstEncoding
      = .ok [255] ∧
    ([255] : List Nat) ≠ [255, 255] := by
  decide

/-- C5: the claim says the 8×8 mono matrix with only pixel `(0, 0)` set,
scanned row-major with MSB-first bit order, modulates to `bytes([0x80])`.
`BinaryModulateStrategy.modulate` instead evaluates a comprehension whose
body reads the unbound names `x` and `y`, raising `NameError` on the first of
the 64 coordinates; no grouping into 8s, padding, or per-group encoding ever
runs. -/
theorem C5_binary_modulate_raises_name_error :
    BinaryModulateStrategy.modulate
      ⟨.MONO, ([1] :: List.replicate 7 [0]) :: List.replicate 7 (List.replicate 8 [0])⟩
      (HorizontalScanStrategy.get_pixel_order 8 8) .MSBFirstEncoding
      = .error .nameError ∧
    (Except.error PyError.nameError : Except PyError (List Nat)) ≠ .ok [128] := by
  decide

/-- C8: the claim says `get_region(0, 0, width, height)` (and generally any
`x1 ≤ x2 ≤ width`, `y1 ≤ y2 ≤ height`) succeeds with the half-open rectangle.
On a 1×1 matrix, `get_region(0, 0, 1, 1)` raises `IndexError`: the source
bounds-checks the exclusive corner `(x2, y2) = (1, 1)` with the inclusive
coordinate validator, contradicting its own documented half-open contract. -/
theorem C8_get_region_full_rectangle_index_error :
    PixelMatrix.get_region ⟨.MONO, [[[1]]]⟩ 0 0 1 1 = .error .indexError := by
  decide

/-- C6: for every positive geometry and every scan-strategy variant (with
`height % 8 = 0` required for the two page-based variants), `get_pixel_order`
yields exactly `width * height` pairwise-distinct coordinates covering the
full rectangle `[0, width) × [0, height)`. -/
theorem C6_scan_order_covers_rectangle (t : ScanStrategyClass) (w h : Nat)
    (hw : 1 ≤ w) (hh : 1 ≤ h) (hp : t.isPage = true → h % 8 = 0) :
    ∃ l, t.get_pixel_order w h = .ok l ∧
      l.length = w * h ∧ l.Nodup ∧ ∀ x y : Nat, ((x, y) ∈ l ↔ x < w ∧ y < h) := by
  cases t with
  | HorizontalScanStrategy =>
    obtain ⟨h1, h2, h3⟩ := horizontal_scan_props w h
    exact ⟨_, rfl, h1, h2, h3⟩
  | HorizontalReversedScanStrategy =>
    obtain ⟨h1, h2, h3⟩ := horizontal_reversed_scan_props w h
    exact ⟨_, rfl, h1, h2, h3⟩
  | VerticalScanStrategy =>
    obtain ⟨h1, h2, h3⟩ := vertical_scan_props w h
    exact ⟨_, rfl, h1, h2, h3⟩
  | VerticalReversedScanStrategy =>
    obtain ⟨h1, h2, h3⟩ := vertical_reversed_scan_props w h
    exact ⟨_, rfl, h1, h2, h3⟩
  | VerticalScanStrategyByPage =>
    exact by_page_scan_props w h (hp rfl)
  | VerticalReversedScanStrategyByPage =>
    exact by_page_reversed_scan_props w h (hp rfl)

/-- Witness for C6 at the page-based variant on a 2×8 screen. -/
theorem C6_scan_order_covers_rectangle_witness :
    (1 ≤ 2 ∧ 1 ≤ 8 ∧
      (ScanStrategyClass.isPage .VerticalScanStrategyByPage = true → 8 % 8 = 0)) ∧
    ∃ l, ScanStrategyClass.get_pixel_order .VerticalScanStrategyByPage 2 8 = .ok l ∧
      l.length = 2 * 8 ∧ l.Nodup ∧ ∀ x y : Nat, ((x, y) ∈ l ↔ x < 2 ∧ y < 8) :=
  ⟨⟨by decide, by decide, by decide⟩,
    C6_scan_order_covers_rectangle .VerticalScanStrategyByPage 2 8
      (by decide) (by decide) (by decide)⟩

/-- C7: for 8 bit values in {0, 1}, the byte produced by
`LSBFirstEncoding.encode_by_bits` is the 8-bit bit reversal of the byte
produced by `MSBFirstEncoding.encode_by_bits`. -/
theorem C7_lsb_encode_is_bit_reverse_of_msb (pixels : List Nat)
    (hlen : pixels.length = 8) (hbits : ∀ v ∈ pixels, v = 0 ∨ v = 1) :
    LSBFirstEncoding.encode_by_bits pixels
      = (MSBFirstEncoding.encode_by_bits pixels).map reverse_bits := by
  rcases pixels with _ | ⟨b0, _ | ⟨b1, _ | ⟨b2, _ | ⟨b3, _ | ⟨b4,
    _ | ⟨b5, _ | ⟨b6, _ | ⟨b7, _ | ⟨b8, t⟩⟩⟩⟩⟩⟩⟩⟩⟩
  all_goals try (simp only [List.length_cons, List.length_nil] at hlen; omega)
  have h0 := hbits b0 (by simp)
  have h1 := hbits b1 (by simp)
  have h2 := hbits b2 (by simp)
  have h3 := hbits b3 (by simp)
  have h4 := hbits b4 (by simp)
  have h5 := hbits b5 (by simp)
  have h6 := hbits b6 (by simp)
  have h7 := hbits b7 (by simp)
  rcases h0 with rfl | rfl <;> rcases h1 with rfl | rfl <;> rcases h2 with rfl | rfl <;>
    rcases h3 with rfl | rfl <;> rcases h4 with rfl | rfl <;> rcases h5 with rfl | rfl <;>
    rcases h6 with rfl | rfl <;> rcases h7 with rfl | rfl <;> decide

/-- Witness for C7 at the spec's own example bit pattern `10110010`. -/
theorem C7_lsb_encode_is_bit_reverse_of_msb_witness :
    (List.length [1, 0, 1, 1, 0, 0, 1, 0] = 8 ∧
      ∀ v ∈ [1, 0, 1, 1, 0, 0, 1, 0], v = 0 ∨ v = 1) ∧
    LSBFirstEncoding.encode_by_bits [1, 0, 1, 1, 0, 0, 1, 0]
      = (MSBFirstEncoding.encode_by_bits [1, 0, 1, 1, 0, 0, 1, 0]).map reverse_bits :=
  ⟨⟨by decide, by decide⟩,
    C7_lsb_encode_is_bit_reverse_of_msb _ (by decide) (by decide)⟩

/-- C4 counterexample: the claim says grayscale output is the raw pixel value
(masked to 8 bits) for BOTH bit orders, with no bit reordering.  With
LSB-first bit order, a 1×1 grayscale matrix holding value 1 modulates to
`[0x80]` — the byte is bit-reversed by `encoding_by_decimal`, not emitted
raw (the claimed output would be `[1]`). -/
theorem C4_grey_lsb_counterexample :
    GreyModulateStrategy.modulate ⟨.GRAY_8, [[[1]]]⟩
      (HorizontalScanStrategy.get_pixel_order 1 1) .LSBFirstEncoding = .ok [128] ∧
    (1 : Nat) &&& 255 = 1 ∧ (128 : Nat) ≠ 1 := by
  decide

/-- C4 amended: for a wellformed grayscale matrix and in-range scan
coordinates, the MSB-first output is one byte per pixel equal to the stored
pixel value, in scan order; the LSB-first output is one byte per pixel equal
to the 8-bit BIT-REVERSAL of the stored pixel value (the non-MSB branch of
`GreyModulateStrategy.modulate` re-encodes every byte through
`encoding_by_decimal`). -/
theorem C4_grey_bytes_per_bit_order (m : PixelMatrix)
    (hmode : m.mode = ColorMode.GRAY_8) (hwf : m.Wellformed)
    (coords : List (Nat × Nat))
    (hc : ∀ c ∈ coords, c.1 < m.width ∧ c.2 < m.height) :
    GreyModulateStrategy.modulate m coords .MSBFirstEncoding
      = .ok (coords.map m.pixel_value) ∧
    GreyModulateStrategy.modulate m coords .LSBFirstEncoding
      = .ok (coords.map fun c => reverse_bits (m.pixel_value c)) := by
  have hv : ∀ c ∈ coords, m.pixel_value c < 256 := by
    intro c hcc
    have hle := wellformed_pixel_value_le hwf (hc c hcc).1 (hc c hcc).2
    rw [hmode] at hle
    simp only [ColorMode.maxVal] at hle
    have hEq : m.pixel_value (c.1, c.2) = m.pixel_value c := rfl
    rw [hEq] at hle
    omega
  constructor
  · show (do
      let vals ← GreyModulateStrategy.raw_scan m coords
      bytesOfList vals) = _
    rw [grey_raw_scan_ok m coords hc]
    show bytesOfList _ = _
    refine bytesOfList_ok ?_
    intro v hvm
    obtain ⟨c, hcc, rfl⟩ := List.mem_map.mp hvm
    exact hv c hcc
  · show (do
      let vals ← GreyModulateStrategy.reencoded_scan m coords
      bytesOfList vals) = _
    rw [grey_reencoded_scan_ok m coords hc hv]
    show bytesOfList _ = _
    refine bytesOfList_ok ?_
    intro v hvm
    obtain ⟨c, hcc, rfl⟩ := List.mem_map.mp hvm
    exact reverse_bits_lt _ (hv c hcc)

/-- Witness for the amended C4 at a 1×1 grayscale matrix holding `0xB2`. -/
theorem C4_grey_bytes_per_bit_order_witness :
    (PixelMatrix.mode ⟨.GRAY_8, [[[178]]]⟩ = ColorMode.GRAY_8 ∧
      PixelMatrix.Wellformed ⟨.GRAY_8, [[[178]]]⟩ ∧
      ∀ c ∈ HorizontalScanStrategy.get_pixel_order 1 1,
        c.1 < PixelMatrix.width ⟨.GRAY_8, [[[178]]]⟩ ∧
        c.2 < PixelMatrix.height ⟨.GRAY_8, [[[178]]]⟩) ∧
    (GreyModulateStrategy.modulate ⟨.GRAY_8, [[[178]]]⟩
        (HorizontalScanStrategy.get_pixel_order 1 1) .MSBFirstEncoding
      = .ok ((HorizontalScanStrategy.get_pixel_order 1 1).map
          (PixelMatrix.pixel_value ⟨.GRAY_8, [[[178]]]⟩)) ∧
      GreyModulateStrategy.modulate ⟨.GRAY_8, [[[178]]]⟩
        (HorizontalScanStrategy.get_pixel_order 1 1) .LSBFirstEncoding
      = .ok ((HorizontalScanStrategy.get_pixel_order 1 1).map
          fun c => reverse_bits (PixelMatrix.pixel_value ⟨.GRAY_8, [[[178]]]⟩ c))) :=
  ⟨⟨rfl, by decide, by decide⟩,
    C4_grey_bytes_per_bit_order ⟨.GRAY_8, [[[178]]]⟩ rfl (by decide) _ (by decide)⟩

/-- C9 counterexample: the claim says no reader (including `to_numpy`)
exposes a mutable alias.  `to_numpy` returns the internal buffer itself:
mutating the array it returns changes what `get_pixel` subsequently reads on
the original matrix (a 1×1 matrix storing 0 reads back 1 after the external
write). -/
theorem C9_to_numpy_alias_counterexample :
    PixelMatrixRef.get_pixel
        (Store.mutateCell ⟨[[[0]]]⟩ (PixelMatrixRef.to_numpy ⟨[[[0]]]⟩ ⟨0, 1, 1⟩) 0 0 1)
        ⟨0, 1, 1⟩ 0 0 = .ok 1 ∧
    PixelMatrixRef.get_pixel ⟨[[[0]]]⟩ ⟨0, 1, 1⟩ 0 0 = .ok 0 := by
  decide

/-- C9 amended: every reader except `to_numpy` is alias-free: overwriting the
buffer returned by the `matrix` property, or the buffer owned by a
`get_region` result, leaves every subsequent `get_pixel` on the original
matrix unchanged (`get_pixel` itself returns scalars by value and `to_bytes`
returns an immutable byte string, so neither can alias storage); `to_numpy`,
however, returns the internal array itself — a documented view, exposed as a
mutable alias. -/
theorem C9_readers_defensive_except_to_numpy (s : Store) (m : PixelMatrixRef)
    (hm : m.ref < s.bufs.length) (b : NumpyBuf) (x y : Nat) :
    (PixelMatrixRef.get_pixel
        (Store.write (PixelMatrixRef.matrix s m).1 (PixelMatrixRef.matrix s m).2 b) m x y
      = PixelMatrixRef.get_pixel s m x y) ∧
    (∀ s₁ m' x1 y1 x2 y2,
      PixelMatrixRef.get_region s m x1 y1 x2 y2 = .ok (s₁, m') →
      PixelMatrixRef.get_pixel (Store.write s₁ m'.ref b) m x y
        = PixelMatrixRef.get_pixel s m x y) := by
  constructor
  · unfold PixelMatrixRef.matrix Store.alloc PixelMatrixRef.get_pixel
    rw [read_write_fresh s _ b hm]
  · intro s₁ m' x1 y1 x2 y2 hreg
    unfold PixelMatrixRef.get_region at hreg
    split_ifs at hreg
    simp only [Store.alloc, Except.ok.injEq, Prod.mk.injEq] at hreg
    obtain ⟨hs₁, hm'⟩ := hreg
    subst hs₁
    subst hm'
    unfold PixelMatrixRef.get_pixel
    rw [read_write_fresh s _ b hm]

/-- Witness for the amended C9 at a concrete one-buffer store. -/
theorem C9_readers_defensive_except_to_numpy_witness :
    (PixelMatrixRef.ref ⟨0, 1, 1⟩ < (Store.mk [[[0]]]).bufs.length) ∧
    ((PixelMatrixRef.get_pixel
        (Store.write (PixelMatrixRef.matrix ⟨[[[0]]]⟩ ⟨0, 1, 1⟩).1
          (PixelMatrixRef.matrix ⟨[[[0]]]⟩ ⟨0, 1, 1⟩).2 [[9]]) ⟨0, 1, 1⟩ 0 0
      = PixelMatrixRef.get_pixel ⟨[[[0]]]⟩ ⟨0, 1, 1⟩ 0 0) ∧
    (∀ s₁ m' x1 y1 x2 y2,
      PixelMatrixRef.get_region ⟨[[[0]]]⟩ ⟨0, 1, 1⟩ x1 y1 x2 y2 = .ok (s₁, m') →
      PixelMatrixRef.get_pixel (Store.write s₁ m'.ref [[9]]) ⟨0, 1, 1⟩ 0 0
        = PixelMatrixRef.get_pixel ⟨[[[0]]]⟩ ⟨0, 1, 1⟩ 0 0)) :=
  ⟨by decide, C9_readers_defensive_except_to_numpy ⟨[[[0]]]⟩ ⟨0, 1, 1⟩ (by decide) [[9]] 0 0⟩

/-- C10: every `ScreenConfig` reachable through the public API — successful
construction or `from_dict`, followed by any sequence of successful public
mutating operations — satisfies the validity predicate: positive width and
height and a non-empty `supported_modes` list.  Construction validates before
an instance escapes; every setter validates before committing; the mode
management methods preserve non-emptiness. -/
theorem C10_reachable_config_valid (c : ScreenConfig) (h : c.Reachable) : c.Valid := by
  induction h with
  | init hi => exact init_ok_valid hi
  | from_dict hd =>
    unfold ScreenConfig.from_dict at hd
    exact init_ok_valid hd
  | step _ hs ih => exact apply_ok_valid ih hs

/-- Witness for C10 at a freshly constructed 1×1 MONO configuration. -/
theorem C10_reachable_config_valid_witness :
    ScreenConfig.Valid ⟨1, 1, [ColorMode.MONO], .HORIZONTAL, .MSB_FIRST, 0, 0⟩ :=
  C10_reachable_config_valid _ (ScreenConfig.Reachable.init (by decide :
    ScreenConfig.init 1 1 [ColorMode.MONO] .HORIZONTAL .MSB_FIRST 0 0
      = .ok ⟨1, 1, [ColorMode.MONO], .HORIZONTAL, .MSB_FIRST, 0, 0⟩))
